import Mathlib

/-!
Verification of the wotan light-curve detrending orchestrator (wotan/flatten.py).

The pipeline of `flatten` is embedded shallowly:
  * machine floats become the type `FVal`: an exact rational together with the
    special values +inf, -inf and NaN, with IEEE-style propagation in the
    arithmetic and comparison operators.  Rounding is not modelled (finite
    values stay exact rationals); the dtype that flatten.py casts its inputs to
    (lines 150-151) is recorded separately in `flattenCastDType`.
  * Python exceptions become the `Except PyErr` monad: ValueError, ImportError
    and the numpy out-of-bounds IndexError.
  * the per-method trend backends (wotan/slider.py, statsmodels lowess, the
    supersmoother package, ...) are not part of the sources; following the
    spec they are treated as collaborators behind the uniform contract
    "(time segment, flux segment) -> trend segment" (a `Collab` argument).
    A concrete instance, the spec-modelled windowed median slider, is provided
    for evaluation at concrete inputs.
  * availability of the optional import-guarded backends (statsmodels,
    supersmoother, untrendy) is an `Env` of booleans.
-/

namespace Wotan

/-- A machine floating-point value: an exact rational, one of the two
infinities, or NaN.  Rounding of finite values is abstracted. -/
inductive FVal where
  | fin : ℚ → FVal
  | inf : FVal
  | ninf : FVal
  | nan : FVal
deriving DecidableEq, Repr

/-- NaN test, as numpy.isnan. -/
def FVal.isnan : FVal → Bool
  | .nan => true
  | _ => false

/-- Finiteness test, as numpy.isfinite. -/
def FVal.isfinite : FVal → Bool
  | .fin _ => true
  | _ => false

/-- IEEE negation. -/
def fneg : FVal → FVal
  | .fin a => .fin (-a)
  | .inf => .ninf
  | .ninf => .inf
  | .nan => .nan

/-- IEEE addition: NaN propagates, inf + (-inf) is NaN. -/
def fadd : FVal → FVal → FVal
  | .nan, _ => .nan
  | _, .nan => .nan
  | .inf, .ninf => .nan
  | .ninf, .inf => .nan
  | .inf, _ => .inf
  | _, .inf => .inf
  | .ninf, _ => .ninf
  | _, .ninf => .ninf
  | .fin a, .fin b => .fin (a + b)

/-- IEEE subtraction. -/
def fsub (a b : FVal) : FVal := fadd a (fneg b)

/-- IEEE multiplication: NaN propagates, 0 * inf is NaN. -/
def fmul : FVal → FVal → FVal
  | .nan, _ => .nan
  | _, .nan => .nan
  | .fin a, .fin b => .fin (a * b)
  | .fin a, .inf => if 0 < a then .inf else if a < 0 then .ninf else .nan
  | .fin a, .ninf => if 0 < a then .ninf else if a < 0 then .inf else .nan
  | .inf, .fin b => if 0 < b then .inf else if b < 0 then .ninf else .nan
  | .ninf, .fin b => if 0 < b then .ninf else if b < 0 then .inf else .nan
  | .inf, .inf => .inf
  | .inf, .ninf => .ninf
  | .ninf, .inf => .ninf
  | .ninf, .ninf => .inf

/-- IEEE division: NaN propagates, x/0 is a signed infinity (0/0 NaN),
x/inf is 0, inf/inf is NaN.  Signed zeros are not modelled (0 is +0). -/
def fdiv : FVal → FVal → FVal
  | .nan, _ => .nan
  | _, .nan => .nan
  | .fin a, .fin b =>
      if b = 0 then (if 0 < a then .inf else if a < 0 then .ninf else .nan)
      else .fin (a / b)
  | .fin _, .inf => .fin 0
  | .fin _, .ninf => .fin 0
  | .inf, .fin b => if b < 0 then .ninf else .inf
  | .ninf, .fin b => if b < 0 then .inf else .ninf
  | _, _ => .nan

/-- IEEE absolute value. -/
def fabs : FVal → FVal
  | .fin a => .fin |a|
  | .nan => .nan
  | _ => .inf

/-- IEEE strict less-than: any comparison with NaN is false. -/
def flt : FVal → FVal → Bool
  | .nan, _ => false
  | _, .nan => false
  | .ninf, .ninf => false
  | .ninf, _ => true
  | _, .ninf => false
  | .inf, _ => false
  | _, .inf => true
  | .fin a, .fin b => a < b

/-- IEEE less-or-equal: any comparison with NaN is false. -/
def fle : FVal → FVal → Bool
  | .nan, _ => false
  | _, .nan => false
  | .ninf, _ => true
  | _, .ninf => false
  | _, .inf => true
  | .inf, _ => false
  | .fin a, .fin b => a ≤ b

/-- IEEE strict greater-than. -/
def fgt (a b : FVal) : Bool := flt b a

/-- Python exceptions raised by the flatten pipeline: ValueError and
ImportError with their message, and the numpy IndexError. -/
inductive PyErr where
  | valueError : String → PyErr
  | importError : String → PyErr
  | indexError : PyErr
deriving DecidableEq, Repr

/-- Modelled from the spec: the supported method set `constants.methods`
(wotan/constants.py is not under src/).  Taken as the methods the spec
enumerates, which are exactly the method names flatten.py dispatches on. -/
def methods : List String :=
  ["biweight", "andrewsinewave", "welsch", "hodges", "median", "mean",
   "trim_mean", "winsorize", "huber", "lowess", "hspline", "supersmoother",
   "cofiam", "savgol", "medfilt", "gp", "untrendy", "pspline"]

/-- The parameters of flatten after validation and default filling
(flatten.py lines 87-144).  The break tolerance is an `FVal` because a
caller-supplied 0 is replaced by infinity (line 144). -/
structure ResolvedParams where
  window_length : ℚ
  break_tolerance : FVal
  cval : ℚ
  supersmoother_alpha : Option ℚ
deriving DecidableEq, Repr

/-- Validation and default filling of flatten.py lines 87-144:
reject an unknown method (line 87), reject proportiontocut outside the open
interval (0, 0.5) (lines 108-112; the isinstance float check is enforced by
the type here), fill the per-method cval default (lines 114-129), derive the
supersmoother bass-enhancement alpha (lines 131-135; for other methods the
Python variable stays unbound, modelled as `none`), default window_length to
2 and break_tolerance to window_length/2, and turn a zero break_tolerance
into infinity (lines 139-144). -/
def resolveParams (method : String) (window_length break_tolerance cval : Option ℚ)
    (proportiontocut : ℚ) : Except PyErr ResolvedParams :=
  if method ∈ methods then
    if proportiontocut ≥ 1/2 ∨ proportiontocut ≤ 0 then
      .error (.valueError "proportiontocut must be >0 and <0.5")
    else
      let cval0 : ℚ :=
        match cval with
        | some c => c
        | none =>
          if method = "biweight" then 5
          else if method = "andrewsinewave" then 1339/1000
          else if method = "welsch" then 211/100
          else if method = "huber" then 3/2
          else if method = "trim_mean" ∨ method = "winsorize" then proportiontocut
          else if method = "savgol" then 2
          else 0
      let alpha : Option ℚ :=
        if method = "supersmoother" then
          (if 0 < cval0 ∧ cval0 < 10 then some cval0 else none)
        else none
      let wl : ℚ := window_length.getD 2
      let bt : ℚ := break_tolerance.getD (wl / 2)
      let bt' : FVal := if bt = 0 then .inf else .fin bt
      .ok ⟨wl, bt', cval0, alpha⟩
  else .error (.valueError "Unknown detrending method")

/-- Numpy array dtypes relevant to flatten. -/
inductive DType where
  | float32
  | float64
deriving DecidableEq, Repr

/-- The dtype flatten.py casts its input arrays to before any computation
(lines 150-151: array(time, dtype=float32), array(flux, dtype=float32)).
The rounding this cast performs on finite values is abstracted in `FVal`;
the target precision itself is recorded here. -/
def flattenCastDType : DType := DType.float32

/-- Availability of the import-guarded collaborator backends in the runtime
environment (flatten.py lines 183-187, 201-205, 234-238). -/
structure Env where
  statsmodels : Bool
  supersmootherMod : Bool
  untrendyMod : Bool
deriving DecidableEq, Repr

/-- An environment in which every optional backend is importable. -/
def allEnv : Env := ⟨true, true, true⟩

/-- Whether the named backend can be imported in the environment. -/
def Env.hasBackend (env : Env) (b : String) : Bool :=
  if b = "statsmodels" then env.statsmodels
  else if b = "supersmoother" then env.supersmootherMod
  else if b = "untrendy" then env.untrendyMod
  else true

/-- The import-guarded backend a method needs, if any (flatten.py lines
184-187 for lowess, 202-205 for supersmoother, 235-238 for untrendy). -/
def backendOf (method : String) : Option String :=
  if method = "lowess" then some "statsmodels"
  else if method = "supersmoother" then some "supersmoother"
  else if method = "untrendy" then some "untrendy"
  else none

/-- A collaborator trend backend under the uniform contract of the spec:
(method, time segment, flux segment) -> trend segment. -/
def Collab := String → List FVal → List FVal → List FVal

/-- numpy.ma.compressed of a masked array: the entries at which the mask is
false, in order (flatten.py lines 153-154). -/
def compress (xs : List FVal) (mask : List Bool) : List FVal :=
  ((xs.zip mask).filter fun p => !p.2).map Prod.fst

/-- numpy.where of the negated mask: the indices at which the mask is false,
in order (flatten.py line 252). -/
def unmaskedIndexes (mask : List Bool) : List Nat :=
  (mask.enum.filter fun p => !p.2).map Prod.fst

/-- Python slice xs[a:b] (indices clamped to the list length). -/
def slice (xs : List FVal) (a b : Nat) : List FVal := (xs.drop a).take (b - a)

/-- Modelled from the spec: the boundary indices of get_gaps_indexes
(wotan/gaps.py is not under src/).  Walking adjacent pairs of the compressed
time array, a new segment starts after index i whenever
time[i+1] - time[i] > break_tolerance. -/
def gapBoundaries (t : List FVal) (bt : FVal) : List Nat :=
  ((List.range (t.length - 1)).filter fun i =>
    fgt (fsub (t.getD (i + 1) .nan) (t.getD i .nan)) bt).map (· + 1)

/-- Modelled from the spec: get_gaps_indexes (wotan/gaps.py is not under
src/): index 0, then the gap boundaries, then the array length, so that
consecutive pairs of the returned list delimit the segments
(flatten.py lines 157, 162-164). -/
def gapBounds (t : List FVal) (bt : FVal) : List Nat :=
  0 :: (gapBoundaries t bt ++ [t.length])

/-- A total order on FVal used only for sorting flux samples inside the
spec-modelled median estimator: -inf, finite values, +inf, NaN. -/
def fleTotal : FVal → FVal → Bool
  | .ninf, _ => true
  | _, .ninf => false
  | .fin a, .fin b => a ≤ b
  | .fin _, _ => true
  | _, .fin _ => false
  | .inf, _ => true
  | _, .inf => false
  | .nan, .nan => true

/-- Ordered insertion for the insertion sort below. -/
def finsert (x : FVal) : List FVal → List FVal
  | [] => [x]
  | y :: ys => if fleTotal x y then x :: y :: ys else y :: finsert x ys

/-- Insertion sort of flux samples. -/
def fsort : List FVal → List FVal
  | [] => []
  | x :: xs => finsert x (fsort xs)

/-- Modelled from the spec: the median location estimator (spec table 4.3):
the middle value of the sorted sample, the average of the two middle values
for an even count. -/
def fmedian (xs : List FVal) : FVal :=
  let s := fsort xs
  let n := s.length
  if n = 0 then .nan
  else if n % 2 = 1 then s.getD (n / 2) .nan
  else fdiv (fadd (s.getD (n / 2 - 1) .nan) (s.getD (n / 2) .nan)) (.fin 2)

/-- Modelled from the spec: the WindowEstimator running_segment
(wotan/slider.py is not under src/).  For each sample i the window is every
sample j with time[j] within window_length/2 of time[i], always including i
itself; when edge_cutoff > 0, samples within edge_cutoff of the first or
last timestamp of the segment get a missing (NaN) trend; otherwise the
location estimator is applied to the flux values inside the window. -/
def runningSegment (window_length edge_cutoff : ℚ) (estim : List FVal → FVal)
    (time flux : List FVal) : List FVal :=
  (List.range time.length).map fun i =>
    let ti := time.getD i .nan
    let tfirst := time.getD 0 .nan
    let tlast := time.getD (time.length - 1) .nan
    if 0 < edge_cutoff ∧
        (flt (fsub ti tfirst) (.fin edge_cutoff) ∨
         flt (fsub tlast ti) (.fin edge_cutoff)) then
      .nan
    else
      estim (((List.range time.length).filter fun j =>
        j = i ∨ fle (fabs (fsub (time.getD j .nan) ti))
          (.fin (window_length / 2))).map (fun j => flux.getD j .nan))

/-- A concrete collaborator: the spec-modelled time-windowed median slider. -/
def collabMedian (window_length edge_cutoff : ℚ) : Collab :=
  fun _ tv fv => runningSegment window_length edge_cutoff fmedian tv fv

/-- One iteration of the dispatch loop of flatten.py (lines 162-246) on a
single segment.  The per-method trend computations all live outside src/ and
are abstracted as the collaborator function, per the uniform collaborator
contract of the spec; the control flow retained from the dispatch is
the guard of the lowess, supersmoother and untrendy module checks (lines
184-187, 202-205, 235-238), which raises ImportError before any further work
in those branches. -/
def segStep (collab : Collab) (env : Env) (method : String)
    (tv fv : List FVal) : Except PyErr (List FVal) :=
  if method = "lowess" ∧ env.statsmodels = false then
    .error (.importError ("Could not import " ++ "statsmodels"))
  else if method = "supersmoother" ∧ env.supersmootherMod = false then
    .error (.importError ("Could not import " ++ "supersmoother"))
  else if method = "untrendy" ∧ env.untrendyMod = false then
    .error (.importError ("Could not import " ++ "untrendy"))
  else .ok (collab method tv fv)

/-- The segment loop of flatten.py (lines 162-248): for every adjacent pair
of gap indexes, compute the trend of the segment slice and append it to the
accumulated trend; an exception in any iteration aborts the loop. -/
def segTrend (collab : Collab) (env : Env) (method : String)
    (tc fc : List FVal) : List Nat → Except PyErr (List FVal)
  | a :: b :: rest =>
    match segStep collab env method (slice tc a b) (slice fc a b) with
    | .error e => .error e
    | .ok seg =>
      match segTrend collab env method tc fc (b :: rest) with
      | .error e => .error e
      | .ok tail => .ok (seg ++ tail)
  | _ => .ok []

/-- The write loop of flatten.py lines 253-254: walk the unmasked indices in
order, writing the next trend value at each; reading past the end of the
trend array is a numpy IndexError.  Trend values beyond the number of
unmasked indices are not consumed. -/
def insertTrendGo : List Nat → List FVal → List FVal → Except PyErr (List FVal)
  | [], _, acc => .ok acc
  | _ :: _, [], _ => .error .indexError
  | j :: js, v :: vs, acc => insertTrendGo js vs (acc.set j v)

/-- Assembly of the full-length trend array (flatten.py lines 251-254):
a full-length NaN array, with the trend values inserted at the unmasked
indices. -/
def insertTrend (n : Nat) (mask : List Bool) (trend_flux : List FVal) :
    Except PyErr (List FVal) :=
  insertTrendGo (unmaskedIndexes mask) trend_flux (List.replicate n FVal.nan)

/-- The result of flatten: the flattened flux, and with return_trend also
the trend (flatten.py lines 256-259). -/
inductive FlattenResult where
  | single : List FVal → FlattenResult
  | pair : List FVal → List FVal → FlattenResult
deriving DecidableEq, Repr

/-- Final assembly (flatten.py lines 251-259): insert the concatenated
segment trends into the full-length grid, divide the flux by the trend
elementwise, and return one or two arrays according to return_trend. -/
def assemble (return_trend : Bool) (flux : List FVal) (n : Nat)
    (mask : List Bool) (trend_flux : List FVal) : Except PyErr FlattenResult :=
  match insertTrend n mask trend_flux with
  | .error e => .error e
  | .ok trend_lc =>
    let flatten_lc := List.zipWith fdiv flux trend_lc
    if return_trend then .ok (.pair flatten_lc trend_lc)
    else .ok (.single flatten_lc)

/-- The data pipeline of flatten.py lines 150-259, after parameter
resolution: cast the inputs (dtype in `flattenCastDType`, rounding
abstracted), mask the samples whose time * flux product is NaN (line 152),
compress both arrays to the unmasked samples, segment the compressed time
axis at the gaps, run the per-segment trend computations, and assemble the
output. -/
def flattenCore (collab : Collab) (env : Env) (method : String)
    (p : ResolvedParams) (return_trend : Bool)
    (time flux : List FVal) : Except PyErr FlattenResult :=
  let mask := (List.zipWith fmul time flux).map FVal.isnan
  let time_compressed := compress time mask
  let flux_compressed := compress flux mask
  let gaps_indexes := gapBounds time_compressed p.break_tolerance
  match segTrend collab env method time_compressed flux_compressed gaps_indexes with
  | .error e => .error e
  | .ok trend_flux => assemble return_trend flux time.length mask trend_flux

/-- The flatten entry point (flatten.py lines 21-259): validate and resolve
the parameters, then run the data pipeline. -/
def flatten (collab : Collab) (env : Env) (method : String)
    (window_length break_tolerance cval : Option ℚ) (proportiontocut : ℚ)
    (return_trend : Bool) (time flux : List FVal) : Except PyErr FlattenResult :=
  match resolveParams method window_length break_tolerance cval proportiontocut with
  | .error e => .error e
  | .ok p => flattenCore collab env method p return_trend time flux

/-- A heap of numeric arrays, for stating the frame property of flatten:
references are indices into the heap. -/
abbrev Heap := List (List FVal)

/-- Read the array behind a reference. -/
def Heap.read (h : Heap) (r : Nat) : List FVal := h.getD r []

/-- Allocate a fresh array, returning its reference. -/
def Heap.alloc (h : Heap) (v : List FVal) : Heap × Nat := (h ++ [v], h.length)

/-- Write one entry of the array behind a reference in place. -/
def Heap.writeAt (h : Heap) (r i : Nat) (x : FVal) : Heap :=
  h.set r ((h.getD r []).set i x)

/-- The write loop of flatten.py lines 253-254 as in-place writes on the
heap-allocated trend array. -/
def insertLoop (r : Nat) : List Nat → List FVal → Heap → Heap × Except PyErr Unit
  | [], _, h => (h, .ok ())
  | _ :: _, [], h => (h, .error .indexError)
  | j :: js, v :: vs, h => insertLoop r js vs (h.writeAt r j v)

/-- The flatten pipeline with its array allocations and in-place writes made
explicit on a heap: the caller passes references to its time and flux
arrays; lines 150-151 allocate fresh copies of both (the local names time
and flux are rebound to the copies), line 251 allocates the fresh trend
array, and the only in-place writes of the whole function (lines 253-254)
target that fresh trend array. -/
def flattenHeap (collab : Collab) (env : Env) (method : String)
    (window_length break_tolerance cval : Option ℚ) (proportiontocut : ℚ)
    (return_trend : Bool) (h : Heap) (tRef fRef : Nat) :
    Heap × Except PyErr FlattenResult :=
  match resolveParams method window_length break_tolerance cval proportiontocut with
  | .error e => (h, .error e)
  | .ok p =>
    let time0 := h.read tRef
    let flux0 := h.read fRef
    let a1 := h.alloc time0
    let a2 := a1.1.alloc flux0
    let time := a2.1.read a1.2
    let flux := a2.1.read a2.2
    let mask := (List.zipWith fmul time flux).map FVal.isnan
    let tc := compress time mask
    let fc := compress flux mask
    match segTrend collab env method tc fc (gapBounds tc p.break_tolerance) with
    | .error e => (a2.1, .error e)
    | .ok trend_flux =>
      let a3 := a2.1.alloc (List.replicate time.length FVal.nan)
      let ins := insertLoop a3.2 (unmaskedIndexes mask) trend_flux a3.1
      match ins.2 with
      | .error e => (ins.1, .error e)
      | .ok _ =>
        let trend_lc := ins.1.read a3.2
        let flatten_lc := List.zipWith fdiv flux trend_lc
        (ins.1, if return_trend then .ok (.pair flatten_lc trend_lc)
                else .ok (.single flatten_lc))

/-- A collaborator that violates the length contract by returning one trend
value too many, to exercise the mismatch behavior of the assembly step. -/
def collabExtra : Collab := fun _ _ fv => fv ++ [FVal.fin 99]

/-! ### Basic lemmas about the value model -/

theorem fdiv_nan (x : FVal) : fdiv x .nan = .nan := by cases x <;> rfl

theorem fgt_inf (d : FVal) : fgt d .inf = false := by cases d <;> rfl

/-- With an infinite break tolerance no gap is ever detected. -/
theorem gapBoundaries_inf (t : List FVal) : gapBoundaries t FVal.inf = [] := by
  simp [gapBoundaries, fgt_inf]

/-- Valid parameters pass validation. -/
theorem resolveParams_ok (method : String) (wl bt cv : Option ℚ) (ptc : ℚ)
    (hm : method ∈ methods) (hp1 : 0 < ptc) (hp2 : ptc < 1/2) :
    ∃ p, resolveParams method wl bt cv ptc = .ok p := by
  unfold resolveParams
  rw [if_pos hm, if_neg]
  · exact ⟨_, rfl⟩
  · push_neg
    exact ⟨hp2, hp1⟩

/-! ### Claim theorems: parameter validation and defaults -/

/-- C3: for every method name outside the supported set, flatten raises the
unsupported-method ValueError at once, for all inputs, before any
computation on the data. -/
theorem flatten_invalid_method (collab : Collab) (env : Env) (method : String)
    (wl bt cv : Option ℚ) (ptc : ℚ) (rt : Bool) (time flux : List FVal)
    (hm : method ∉ methods) :
    flatten collab env method wl bt cv ptc rt time flux =
      .error (.valueError "Unknown detrending method") := by
  unfold flatten resolveParams
  rw [if_neg hm]

theorem flatten_invalid_method_witness :
    "not_a_method" ∉ methods ∧
    flatten (collabMedian 2 0) allEnv "not_a_method" none none none (1/10) false
      [FVal.fin 0] [FVal.fin 1] = .error (.valueError "Unknown detrending method") :=
  ⟨by decide, flatten_invalid_method _ _ _ _ _ _ _ _ _ _ (by decide)⟩

/-- C4: for the methods that use proportiontocut (trim_mean and winsorize),
a proportiontocut outside the open interval (0, 0.5) raises the
InvalidParameter ValueError. -/
theorem flatten_proportiontocut_range (collab : Collab) (env : Env)
    (method : String) (wl bt cv : Option ℚ) (ptc : ℚ) (rt : Bool)
    (time flux : List FVal)
    (hmeth : method = "trim_mean" ∨ method = "winsorize")
    (hp : ptc ≥ 1/2 ∨ ptc ≤ 0) :
    flatten collab env method wl bt cv ptc rt time flux =
      .error (.valueError "proportiontocut must be >0 and <0.5") := by
  have hm : method ∈ methods := by
    rcases hmeth with h | h <;> subst h <;> decide
  unfold flatten resolveParams
  rw [if_pos hm, if_pos hp]

theorem flatten_proportiontocut_range_witness :
    ((3/5 : ℚ) ≥ 1/2 ∨ (3/5 : ℚ) ≤ 0) ∧
    flatten (collabMedian 2 0) allEnv "trim_mean" none none none (3/5) false
      [FVal.fin 0] [FVal.fin 1] =
      .error (.valueError "proportiontocut must be >0 and <0.5") :=
  ⟨Or.inl (by norm_num),
   flatten_proportiontocut_range _ _ _ _ _ _ _ _ _ _ (Or.inl rfl)
     (Or.inl (by norm_num))⟩

/-- C5: the default parameters of flatten: window_length defaults to 2,
break_tolerance defaults to window_length/2 (so 1 when both are omitted),
cval defaults to 5 for biweight, 1.339 for andrewsinewave, 2.11 for welsch
and 1.5 for huber, and a caller-supplied break_tolerance of 0 is replaced by
an infinite tolerance, under which no gap splitting ever occurs. -/
theorem flatten_parameter_defaults :
    resolveParams "biweight" none none none (1/10) =
      .ok ⟨2, .fin 1, 5, none⟩ ∧
    resolveParams "andrewsinewave" none none none (1/10) =
      .ok ⟨2, .fin 1, 1339/1000, none⟩ ∧
    resolveParams "welsch" none none none (1/10) =
      .ok ⟨2, .fin 1, 211/100, none⟩ ∧
    resolveParams "huber" none none none (1/10) =
      .ok ⟨2, .fin 1, 3/2, none⟩ ∧
    (∀ (method : String) (wl cv : Option ℚ) (ptc : ℚ) (p : ResolvedParams),
      resolveParams method wl (some 0) cv ptc = .ok p →
        p.break_tolerance = FVal.inf) ∧
    (∀ (method : String) (w : ℚ) (cv : Option ℚ) (ptc : ℚ) (p : ResolvedParams),
      resolveParams method (some w) none cv ptc = .ok p →
        p.window_length = w ∧ (w / 2 ≠ 0 → p.break_tolerance = .fin (w / 2))) ∧
    (∀ t, gapBoundaries t FVal.inf = []) := by
  refine ⟨by with_unfolding_all rfl, by with_unfolding_all rfl,
    by with_unfolding_all rfl, by with_unfolding_all rfl, ?_, ?_, gapBoundaries_inf⟩
  · intro method wl cv ptc p h
    unfold resolveParams at h
    split at h
    · split at h
      · exact absurd h (by simp)
      · injection h with h
        subst h
        with_unfolding_all rfl
    · exact absurd h (by simp)
  · intro method w cv ptc p h
    unfold resolveParams at h
    split at h
    · split at h
      · exact absurd h (by simp)
      · injection h with h
        subst h
        refine ⟨rfl, fun hw => ?_⟩
        simp only [Option.getD_some, Option.getD_none, ResolvedParams.break_tolerance]
        rw [if_neg hw]
    · exact absurd h (by simp)

theorem flatten_parameter_defaults_witness :
    resolveParams "median" (some 6) (some 0) none (1/10) =
      .ok ⟨6, FVal.inf, 0, none⟩ ∧
    (⟨6, FVal.inf, 0, none⟩ : ResolvedParams).break_tolerance = FVal.inf ∧
    (⟨6, .fin 3, 0, none⟩ : ResolvedParams).window_length = 6 := by
  refine ⟨by with_unfolding_all rfl, ?_, ?_⟩
  · exact flatten_parameter_defaults.2.2.2.2.1 "median" (some 6) none (1/10) _
      (by with_unfolding_all rfl)
  · exact (flatten_parameter_defaults.2.2.2.2.2.1 "median" 6 none (1/10) _
      (by with_unfolding_all rfl)).1

/-- C7 counterexample: the dtype flatten casts its inputs to is not
float64. -/
theorem flatten_dtype_not_float64_cex : flattenCastDType ≠ DType.float64 := by
  decide

/-- C7 amended: flatten casts both input arrays to 32-bit floats
(dtype float32) before any computation, so the pipeline runs in 32-bit,
not 64-bit, precision. -/
theorem flatten_dtype_float32 : flattenCastDType = DType.float32 := rfl

/-- C10: for the supersmoother method, a supplied cval outside the open
interval (0, 10) does not raise; the bass-enhancement alpha is silently set
to the automatic choice (none). -/
theorem supersmoother_alpha_auto (wl bt : Option ℚ) (c ptc : ℚ)
    (hc : c ≤ 0 ∨ 10 ≤ c) (hp1 : 0 < ptc) (hp2 : ptc < 1/2) :
    ∃ p, resolveParams "supersmoother" wl bt (some c) ptc = .ok p ∧
      p.supersmoother_alpha = none := by
  unfold resolveParams
  rw [if_pos (by decide), if_neg (by push_neg; exact ⟨hp2, hp1⟩)]
  refine ⟨_, rfl, ?_⟩
  show (if "supersmoother" = "supersmoother" then
    (if 0 < c ∧ c < 10 then some c else none) else none) = none
  rw [if_pos rfl, if_neg]
  rintro ⟨h1, h2⟩
  rcases hc with h | h
  · exact absurd h1 (not_lt.mpr h)
  · exact absurd h2 (not_lt.mpr h)

theorem supersmoother_alpha_auto_witness :
    ((12 : ℚ) ≤ 0 ∨ (10 : ℚ) ≤ 12) ∧
    ∃ p, resolveParams "supersmoother" none none (some 12) (1/10) = .ok p ∧
      p.supersmoother_alpha = none :=
  ⟨Or.inr (by norm_num),
   supersmoother_alpha_auto none none 12 (1/10) (Or.inr (by norm_num))
     (by norm_num) (by norm_num)⟩

/-! ### Claim theorems: masking (C2) -/

/-- C2 counterexample: a sample whose time is non-finite (+inf) with finite
nonzero flux is not masked: flatten computes a finite flattened value and a
finite trend at that index instead of excluding it and returning NaN. -/
theorem flatten_nonfinite_not_masked_cex :
    FVal.isfinite FVal.inf = false ∧
    flatten (collabMedian 4 0) allEnv "median" (some 4) (some 0) none (1/10)
      true [FVal.inf] [FVal.fin 2] =
      .ok (.pair [FVal.fin 1] [FVal.fin 2]) ∧
    FVal.isnan (FVal.fin 1) = false ∧ FVal.isnan (FVal.fin 2) = false := by
  exact ⟨rfl, by with_unfolding_all rfl, rfl, rfl⟩

/-! ### Claim theorems: assembly mismatch (C8) -/

/-- C8 counterexample: when the per-segment trends hold more values than
there are unmasked indices (2 values for 1 unmasked sample), assembly does
not fail: flatten returns normally and the extra value is silently
dropped. -/
theorem trend_mismatch_silent_cex :
    (collabExtra "median" [FVal.fin 0] [FVal.fin 1]).length = 2 ∧
    (unmaskedIndexes [false]).length = 1 ∧
    flatten collabExtra allEnv "median" none none none (1/10) true
      [FVal.fin 0] [FVal.fin 1] = .ok (.pair [FVal.fin 1] [FVal.fin 1]) := by
  exact ⟨rfl, rfl, by with_unfolding_all rfl⟩

theorem insertTrendGo_short : ∀ (js : List Nat) (vs acc : List FVal),
    vs.length < js.length → insertTrendGo js vs acc = .error .indexError
  | [], _, _, h => absurd h (by simp)
  | _ :: _, [], _, _ => rfl
  | _ :: js, _ :: vs, acc, h =>
    insertTrendGo_short js vs _ (by simpa using h)

/-- C8 amended: when the per-segment trends hold fewer values than there are
unmasked indices, assembly of the full-length trend array fails with the
fatal numpy IndexError; when they hold more, the extra values are silently
dropped (see the counterexample). -/
theorem insertTrend_short_fails (n : Nat) (mask : List Bool)
    (trend : List FVal)
    (h : trend.length < (unmaskedIndexes mask).length) :
    insertTrend n mask trend = .error .indexError :=
  insertTrendGo_short _ _ _ h

theorem insertTrend_short_fails_witness :
    ([] : List FVal).length < (unmaskedIndexes [false, false]).length ∧
    insertTrend 2 [false, false] [] = .error .indexError :=
  ⟨by decide, insertTrend_short_fails 2 [false, false] [] (by decide)⟩

/-! ### Lemmas: gap segmentation structure -/

theorem gapBoundaries_mem_le (t : List FVal) (bt : FVal) :
    ∀ x ∈ gapBoundaries t bt, 1 ≤ x ∧ x ≤ t.length := by
  intro x hx
  simp only [gapBoundaries, List.mem_map, List.mem_filter, List.mem_range] at hx
  obtain ⟨i, ⟨hi, _⟩, rfl⟩ := hx
  omega

theorem gapBoundaries_pairwise (t : List FVal) (bt : FVal) :
    List.Pairwise (· < ·) (gapBoundaries t bt) := by
  unfold gapBoundaries
  rw [List.pairwise_map]
  exact ((List.pairwise_lt_range _).filter _).imp (by omega)

theorem gapBounds_chain (t : List FVal) (bt : FVal) :
    List.Chain' (· ≤ ·) (gapBounds t bt) := by
  apply List.Pairwise.chain'
  unfold gapBounds
  rw [List.pairwise_cons]
  refine ⟨fun b _ => Nat.zero_le b, ?_⟩
  rw [List.pairwise_append]
  refine ⟨(gapBoundaries_pairwise t bt).imp le_of_lt,
    List.pairwise_singleton _ _, ?_⟩
  intro a ha b hb
  rw [List.mem_singleton] at hb
  subst hb
  exact (gapBoundaries_mem_le t bt a ha).2

/-- Python slice lengths. -/
theorem slice_length (xs : List FVal) (a b : Nat) (hb : b ≤ xs.length)
    (hab : a ≤ b) : (slice xs a b).length = b - a := by
  simp only [slice, List.length_take, List.length_drop]
  omega

theorem slice_length_eq (xs ys : List FVal) (h : xs.length = ys.length)
    (a b : Nat) : (slice xs a b).length = (slice ys a b).length := by
  simp only [slice, List.length_take, List.length_drop, h]

/-- With every backend available, the dispatch of one segment returns the
collaborator trend. -/
theorem segStep_allEnv (collab : Collab) (method : String) (tv fv : List FVal) :
    segStep collab allEnv method tv fv = .ok (collab method tv fv) := by
  simp [segStep, allEnv]

/-- The segment loop succeeds on a monotone bound list ending at the array
length, and the concatenated trend has one value per compressed sample. -/
theorem segTrend_ok_concat (collab : Collab) (method : String)
    (tc fc : List FVal)
    (hc : ∀ m t f, t.length = f.length → (collab m t f).length = f.length)
    (hlen : tc.length = fc.length) :
    ∀ (bs : List Nat) (a : Nat),
      List.Chain' (· ≤ ·) (a :: bs ++ [tc.length]) →
      (∀ x ∈ bs, x ≤ tc.length) →
      ∃ v, segTrend collab allEnv method tc fc (a :: bs ++ [tc.length]) = .ok v ∧
        v.length = tc.length - a := by
  intro bs
  induction bs with
  | nil =>
    intro a hch _
    have hab : a ≤ tc.length := (List.chain'_cons.mp hch).1
    refine ⟨collab method (slice tc a tc.length) (slice fc a tc.length) ++ [], ?_, ?_⟩
    · simp only [List.nil_append, segTrend, segStep_allEnv]
    · rw [List.append_nil, hc _ _ _ (slice_length_eq tc fc hlen a tc.length),
        slice_length fc a tc.length (le_of_eq hlen) hab]
  | cons b bs ih =>
    intro a hch hmem
    have hab : a ≤ b := (List.chain'_cons.mp hch).1
    have hbn : b ≤ tc.length := hmem b (List.mem_cons_self b bs)
    obtain ⟨v, hv, hvlen⟩ := ih b (List.chain'_cons.mp hch).2
      (fun x hx => hmem x (List.mem_cons_of_mem b hx))
    refine ⟨collab method (slice tc a b) (slice fc a b) ++ v, ?_, ?_⟩
    · simp only [List.cons_append, segTrend, segStep_allEnv, List.append_eq]
      rw [List.cons_append] at hv
      rw [hv]
    · rw [List.length_append, hc _ _ _ (slice_length_eq tc fc hlen a b),
        slice_length fc a b (hlen ▸ hbn) hab, hvlen]
      omega

/-! ### Lemmas: counting unmasked samples -/

theorem enumFrom_filter_length (l : List Bool) : ∀ (k : Nat),
    ((List.enumFrom k l).filter fun p => !p.2).length =
      (l.filter fun b => !b).length := by
  induction l with
  | nil => intro k; rfl
  | cons b l ih =>
    intro k
    cases b <;> simp [List.enumFrom, List.filter_cons, ih]

theorem unmaskedIndexes_length (mask : List Bool) :
    (unmaskedIndexes mask).length = (mask.filter fun b => !b).length := by
  unfold unmaskedIndexes
  rw [List.length_map]
  exact enumFrom_filter_length mask 0

theorem compress_length (xs : List FVal) (mask : List Bool)
    (h : xs.length = mask.length) :
    (compress xs mask).length = (mask.filter fun b => !b).length := by
  induction xs generalizing mask with
  | nil =>
    cases mask with
    | nil => rfl
    | cons b m => simp at h
  | cons x xs ih =>
    cases mask with
    | nil => simp at h
    | cons b m =>
      have h' : xs.length = m.length := by simpa using h
      cases b <;> simp [compress, List.filter_cons] <;>
        simpa [compress] using ih m h'

/-! ### Lemmas: the trend write loop -/

theorem insertTrendGo_ok : ∀ (js : List Nat) (vs acc : List FVal),
    js.length ≤ vs.length →
    ∃ r, insertTrendGo js vs acc = .ok r ∧ r.length = acc.length
  | [], _, acc, _ => ⟨acc, rfl, rfl⟩
  | _ :: _, [], _, h => absurd h (by simp)
  | j :: js, v :: vs, acc, h => by
    obtain ⟨r, hr, hl⟩ := insertTrendGo_ok js vs (acc.set j v) (by simpa using h)
    exact ⟨r, hr, by simpa [List.length_set] using hl⟩

theorem insertTrendGo_ok_length : ∀ (js : List Nat) (vs acc r : List FVal),
    insertTrendGo js vs acc = .ok r → r.length = acc.length
  | [], _, acc, r, h => by injection h with h; rw [← h]
  | _ :: _, [], _, _, h => by cases h
  | j :: js, v :: vs, acc, r, h => by
    have := insertTrendGo_ok_length js vs (acc.set j v) r h
    simpa [List.length_set] using this

theorem insertTrendGo_getD_not_mem (i : Nat) (d : FVal) :
    ∀ (js : List Nat) (vs acc r : List FVal),
      insertTrendGo js vs acc = .ok r → (∀ j ∈ js, j ≠ i) →
      r.getD i d = acc.getD i d
  | [], _, acc, r, h, _ => by injection h with h; rw [← h]
  | _ :: _, [], _, _, h, _ => by cases h
  | j :: js, v :: vs, acc, r, h, hne => by
    rw [insertTrendGo_getD_not_mem i d js vs (acc.set j v) r h
      (fun x hx => hne x (List.mem_cons_of_mem _ hx))]
    rw [List.getD_eq_getElem?_getD,
      List.getElem?_set_ne (hne j (List.mem_cons_self j js)),
      ← List.getD_eq_getElem?_getD]

theorem replicate_getD (n i : Nat) (x d : FVal) (h : i < n) :
    (List.replicate n x).getD i d = x := by
  rw [List.getD_eq_getElem?_getD,
    List.getElem?_eq_getElem (by simpa using h), List.getElem_replicate]
  rfl

theorem enumFrom_mem_getD (l : List Bool) : ∀ (k : Nat) (p : Nat × Bool),
    p ∈ List.enumFrom k l → k ≤ p.1 ∧ l.getD (p.1 - k) true = p.2 := by
  induction l with
  | nil => intro k p hp; cases hp
  | cons b l ih =>
    intro k p hp
    rw [List.enumFrom, List.mem_cons] at hp
    rcases hp with rfl | hp
    · exact ⟨le_refl _, by simp⟩
    · obtain ⟨hk, hg⟩ := ih (k + 1) p hp
      refine ⟨by omega, ?_⟩
      have he : p.1 - k = (p.1 - (k + 1)) + 1 := by omega
      rw [he]
      simpa using hg

theorem mem_unmaskedIndexes (mask : List Bool) (i : Nat)
    (h : i ∈ unmaskedIndexes mask) : mask.getD i true = false := by
  unfold unmaskedIndexes at h
  rw [List.mem_map] at h
  obtain ⟨p, hp, rfl⟩ := h
  rw [List.mem_filter] at hp
  have hg := (enumFrom_mem_getD mask 0 p hp.1).2
  rw [Nat.sub_zero] at hg
  rw [hg]
  simpa using hp.2

/-! ### Lemmas: indexing through the mask -/

theorem zipWith_getD (f : FVal → FVal → FVal) (as bs : List FVal) (i : Nat)
    (d : FVal) (ha : i < as.length) (hb : i < bs.length) :
    (List.zipWith f as bs).getD i d = f (as.getD i d) (bs.getD i d) := by
  rw [List.getD_eq_getElem?_getD,
    List.getElem?_eq_getElem (by rw [List.length_zipWith]; omega),
    List.getElem_zipWith,
    List.getD_eq_getElem?_getD as, List.getElem?_eq_getElem ha,
    List.getD_eq_getElem?_getD bs, List.getElem?_eq_getElem hb]
  rfl

theorem mask_getD (time flux : List FVal) (i : Nat) (d : Bool)
    (hi : i < time.length) (hlen : time.length = flux.length) :
    ((List.zipWith fmul time flux).map FVal.isnan).getD i d =
      FVal.isnan (fmul (time.getD i .nan) (flux.getD i .nan)) := by
  have hz : i < (List.zipWith fmul time flux).length := by
    rw [List.length_zipWith]
    omega
  rw [List.getD_eq_getElem?_getD,
    List.getElem?_eq_getElem (by rw [List.length_map]; exact hz),
    List.getElem_map, List.getElem_zipWith,
    List.getD_eq_getElem?_getD time, List.getElem?_eq_getElem hi,
    List.getD_eq_getElem?_getD flux,
    List.getElem?_eq_getElem (by omega)]
  rfl

/-! ### Claim theorems: the length invariant (C1) -/

/-- The data pipeline succeeds under the collaborator length contract and
produces full-length outputs. -/
theorem flattenCore_ok (collab : Collab) (method : String) (p : ResolvedParams)
    (rt : Bool) (time flux : List FVal)
    (hlen : time.length = flux.length)
    (hc : ∀ m t f, t.length = f.length → (collab m t f).length = f.length) :
    ∃ out, flattenCore collab allEnv method p rt time flux = .ok out ∧
      (rt = true → ∃ fl tr, out = .pair fl tr ∧ fl.length = time.length ∧
        tr.length = time.length) ∧
      (rt = false → ∃ fl, out = .single fl ∧ fl.length = time.length) := by
  have hmlen : ((List.zipWith fmul time flux).map FVal.isnan).length =
      time.length := by
    rw [List.length_map, List.length_zipWith, hlen, min_self]
  have htc := compress_length time _ hmlen.symm
  have hfc := compress_length flux _ (by rw [hmlen, hlen])
  have htcfc :
      (compress time ((List.zipWith fmul time flux).map FVal.isnan)).length =
      (compress flux ((List.zipWith fmul time flux).map FVal.isnan)).length := by
    rw [htc, hfc]
  obtain ⟨v, hv, hvlen⟩ := segTrend_ok_concat collab method _ _ hc htcfc
    (gapBoundaries (compress time ((List.zipWith fmul time flux).map FVal.isnan))
      p.break_tolerance) 0
    (gapBounds_chain _ _)
    (fun x hx => (gapBoundaries_mem_le _ _ x hx).2)
  rw [List.cons_append] at hv
  rw [Nat.sub_zero] at hvlen
  have hidx :
      (unmaskedIndexes ((List.zipWith fmul time flux).map FVal.isnan)).length ≤
        v.length := by
    rw [unmaskedIndexes_length, hvlen, htc]
  obtain ⟨tr, htr, htrlen⟩ :=
    insertTrendGo_ok _ v (List.replicate time.length FVal.nan) hidx
  rw [List.length_replicate] at htrlen
  have hfl : (List.zipWith fdiv flux tr).length = time.length := by
    rw [List.length_zipWith, htrlen, ← hlen, min_self]
  cases rt with
  | true =>
    refine ⟨.pair (List.zipWith fdiv flux tr) tr, ?_, ?_, ?_⟩
    · simp only [flattenCore, gapBounds, hv]
      simp only [assemble, insertTrend, htr, if_true]
    · intro _
      exact ⟨_, _, rfl, hfl, htrlen⟩
    · intro hcon
      cases hcon
  | false =>
    refine ⟨.single (List.zipWith fdiv flux tr), ?_, ?_, ?_⟩
    · simp only [flattenCore, gapBounds, hv]
      simp only [assemble, insertTrend, htr, Bool.false_eq_true, if_false]
    · intro hcon
      cases hcon
    · intro _
      exact ⟨_, rfl, hfl⟩

/-- C1: for equal-length inputs, a valid method, a valid proportiontocut,
every backend available and a collaborator meeting the length contract,
flatten succeeds; the flattened flux has the length of the input, and with
return_trend it returns a pair of arrays of that same full length. -/
theorem flatten_length_invariant (collab : Collab) (method : String)
    (wl bt cv : Option ℚ) (ptc : ℚ) (rt : Bool) (time flux : List FVal)
    (hlen : time.length = flux.length)
    (hc : ∀ m t f, t.length = f.length → (collab m t f).length = f.length)
    (hm : method ∈ methods) (hp1 : 0 < ptc) (hp2 : ptc < 1/2) :
    ∃ out, flatten collab allEnv method wl bt cv ptc rt time flux = .ok out ∧
      (rt = true → ∃ fl tr, out = .pair fl tr ∧ fl.length = time.length ∧
        tr.length = time.length) ∧
      (rt = false → ∃ fl, out = .single fl ∧ fl.length = time.length) := by
  obtain ⟨p, hres⟩ := resolveParams_ok method wl bt cv ptc hm hp1 hp2
  obtain ⟨out, hout, h1, h2⟩ := flattenCore_ok collab method p rt time flux hlen hc
  refine ⟨out, ?_, h1, h2⟩
  unfold flatten
  rw [hres]
  exact hout

/-- The spec-modelled median slider meets the collaborator length
contract. -/
theorem collabMedian_contract (w e : ℚ) : ∀ (m : String) (t f : List FVal),
    t.length = f.length → (collabMedian w e m t f).length = f.length := by
  intro m t f h
  simp [collabMedian, runningSegment, h]

theorem flatten_length_invariant_witness :
    ∃ out, flatten (collabMedian 2 0) allEnv "median" none none none (1/10)
      true [FVal.fin 0, FVal.fin 1, FVal.nan]
      [FVal.fin 3, FVal.fin 4, FVal.fin 5] = .ok out ∧
      (true = true → ∃ fl tr, out = .pair fl tr ∧ fl.length = 3 ∧
        tr.length = 3) ∧
      (true = false → ∃ fl, out = .single fl ∧ fl.length = 3) :=
  flatten_length_invariant (collabMedian 2 0) "median" none none none (1/10)
    true _ _ rfl (collabMedian_contract 2 0) (by decide) (by norm_num)
    (by norm_num)

/-- C2 amended: at every index whose time * flux product is NaN (either
value NaN, or a zero times infinity pair) the sample is excluded from the
compressed computation arrays and the flattened output - and the trend,
when returned - is NaN at that index, for every method and every
collaborator; such inputs are not an error. -/
theorem flatten_nan_masked_missing (collab : Collab) (env : Env)
    (method : String) (wl bt cv : Option ℚ) (ptc : ℚ) (rt : Bool)
    (time flux : List FVal) (out : FlattenResult) (i : Nat)
    (hlen : time.length = flux.length)
    (hi : i < time.length)
    (hmask : FVal.isnan (fmul (time.getD i .nan) (flux.getD i .nan)) = true)
    (hok : flatten collab env method wl bt cv ptc rt time flux = .ok out) :
    (∀ fl, out = .single fl → fl.getD i .nan = .nan) ∧
    (∀ fl tr, out = .pair fl tr →
      fl.getD i .nan = .nan ∧ tr.getD i .nan = .nan) := by
  unfold flatten at hok
  cases hres : resolveParams method wl bt cv ptc with
  | error e =>
    rw [hres] at hok
    cases hok
  | ok p =>
    rw [hres] at hok
    simp only [flattenCore, gapBounds] at hok
    have hMi : ((List.zipWith fmul time flux).map FVal.isnan).getD i true
        = true := by
      rw [mask_getD time flux i true hi hlen]
      exact hmask
    cases hseg : segTrend collab env method
        (compress time ((List.zipWith fmul time flux).map FVal.isnan))
        (compress flux ((List.zipWith fmul time flux).map FVal.isnan))
        (0 :: (gapBoundaries
          (compress time ((List.zipWith fmul time flux).map FVal.isnan))
          p.break_tolerance ++
          [(compress time
            ((List.zipWith fmul time flux).map FVal.isnan)).length])) with
    | error e =>
      rw [hseg] at hok
      cases hok
    | ok v =>
      rw [hseg] at hok
      simp only [assemble, insertTrend] at hok
      cases hins : insertTrendGo
          (unmaskedIndexes ((List.zipWith fmul time flux).map FVal.isnan)) v
          (List.replicate time.length FVal.nan) with
      | error e =>
        rw [hins] at hok
        cases hok
      | ok tr =>
        rw [hins] at hok
        dsimp only at hok
        have htrlen : tr.length = time.length := by
          have hl := insertTrendGo_ok_length _ _ _ _ hins
          rwa [List.length_replicate] at hl
        have hne : ∀ j ∈
            unmaskedIndexes ((List.zipWith fmul time flux).map FVal.isnan),
            j ≠ i := by
          intro j hj hji
          have h1 := mem_unmaskedIndexes _ i (hji ▸ hj)
          rw [h1] at hMi
          cases hMi
        have htrnan : tr.getD i .nan = .nan := by
          rw [insertTrendGo_getD_not_mem i .nan _ _ _ _ hins hne]
          exact replicate_getD time.length i FVal.nan FVal.nan hi
        have hflnan : (List.zipWith fdiv flux tr).getD i .nan = .nan := by
          rw [zipWith_getD fdiv flux tr i .nan (hlen ▸ hi)
            (by rw [htrlen]; exact hi), htrnan, fdiv_nan]
        cases rt with
        | true =>
          rw [if_pos rfl] at hok
          injection hok with hok
          subst hok
          constructor
          · intro fl hfl
            cases hfl
          · intro fl tr' hp
            injection hp with h1 h2
            subst h1
            subst h2
            exact ⟨hflnan, htrnan⟩
        | false =>
          rw [if_neg (by simp)] at hok
          injection hok with hok
          subst hok
          constructor
          · intro fl hfl
            injection hfl with h1
            subst h1
            exact hflnan
          · intro fl tr' hp
            cases hp

theorem flatten_nan_masked_missing_witness :
    [FVal.fin 1, FVal.nan].getD 1 FVal.nan = FVal.nan :=
  (flatten_nan_masked_missing (collabMedian 2 0) allEnv "median" none none
    none (1/10) false [FVal.fin 0, FVal.nan] [FVal.fin 1, FVal.fin 1]
    (.single [FVal.fin 1, FVal.nan]) 1 rfl (by decide) rfl
    (by with_unfolding_all rfl)).1 [FVal.fin 1, FVal.nan] rfl

/-! ### Claim theorems: missing collaborator backends (C6) -/

theorem backendOf_mem (method b : String) (hb : backendOf method = some b) :
    method ∈ methods := by
  unfold backendOf at hb
  split_ifs at hb with h1 h2 h3
  · subst h1
    decide
  · subst h2
    decide
  · subst h3
    decide

/-- When the backend a method needs is unavailable, the dispatch of any
segment raises ImportError with the message naming it. -/
theorem segStep_missing (collab : Collab) (env : Env) (method b : String)
    (hb : backendOf method = some b) (hav : env.hasBackend b = false)
    (tv fv : List FVal) :
    segStep collab env method tv fv =
      .error (.importError ("Could not import " ++ b)) := by
  unfold backendOf at hb
  split_ifs at hb with h1 h2 h3
  · injection hb with hb
    subst h1
    subst hb
    have hs : env.statsmodels = false := by
      simpa [Env.hasBackend] using hav
    simp [segStep, hs]
  · injection hb with hb
    subst h2
    subst hb
    have hs : env.supersmootherMod = false := by
      simpa [Env.hasBackend] using hav
    simp [segStep, hs]
  · injection hb with hb
    subst h3
    subst hb
    have hs : env.untrendyMod = false := by
      simpa [Env.hasBackend] using hav
    simp [segStep, hs]

/-- The segment loop runs at least one iteration (the gap index list always
has at least two entries), so a failing dispatch aborts flatten. -/
theorem segTrend_gapBounds_error (collab : Collab) (env : Env)
    (method : String) (tc fc : List FVal) (bt : FVal) (e : PyErr)
    (h : ∀ tv fv, segStep collab env method tv fv = .error e) :
    segTrend collab env method tc fc (gapBounds tc bt) = .error e := by
  unfold gapBounds
  cases gapBoundaries tc bt with
  | nil => simp only [List.nil_append, segTrend, h]
  | cons y ys => simp only [List.cons_append, segTrend, h]

/-- C6: for every method that needs an import-guarded backend (lowess,
supersmoother, untrendy), if that backend is unavailable in the runtime
environment then flatten fails, for all inputs with valid parameters, with
an ImportError whose message names the missing dependency. -/
theorem flatten_missing_backend (collab : Collab) (env : Env)
    (method b : String) (wl bt cv : Option ℚ) (ptc : ℚ) (rt : Bool)
    (time flux : List FVal)
    (hb : backendOf method = some b) (hav : env.hasBackend b = false)
    (hp1 : 0 < ptc) (hp2 : ptc < 1/2) :
    flatten collab env method wl bt cv ptc rt time flux =
      .error (.importError ("Could not import " ++ b)) := by
  obtain ⟨p, hres⟩ := resolveParams_ok method wl bt cv ptc
    (backendOf_mem method b hb) hp1 hp2
  unfold flatten
  rw [hres]
  show flattenCore collab env method p rt time flux = _
  simp only [flattenCore]
  rw [segTrend_gapBounds_error collab env method _ _ _ _
    (segStep_missing collab env method b hb hav)]

theorem flatten_missing_backend_witness :
    backendOf "lowess" = some "statsmodels" ∧
    Env.hasBackend ⟨false, true, true⟩ "statsmodels" = false ∧
    flatten (collabMedian 2 0) ⟨false, true, true⟩ "lowess" none none none
      (1/10) false [FVal.fin 0, FVal.fin 1] [FVal.fin 3, FVal.fin 4] =
      .error (.importError ("Could not import " ++ "statsmodels")) :=
  ⟨rfl, rfl,
   flatten_missing_backend (collabMedian 2 0) ⟨false, true, true⟩ "lowess"
     "statsmodels" none none none (1/10) false _ _ rfl rfl (by norm_num)
     (by norm_num)⟩

/-! ### Claim theorems: no mutation of the caller arrays (C9) -/

theorem Heap.read_append_lt (h : Heap) (v : List FVal) (r : Nat)
    (hr : r < h.length) : Heap.read (h ++ [v]) r = h.read r := by
  unfold Heap.read
  exact List.getD_append _ _ _ _ hr

theorem Heap.writeAt_read_ne (h : Heap) (r i : Nat) (x : FVal) (q : Nat)
    (hq : q ≠ r) : Heap.read (h.writeAt r i x) q = h.read q := by
  unfold Heap.writeAt Heap.read
  rw [List.getD_eq_getElem?_getD, List.getElem?_set_ne (Ne.symm hq),
    ← List.getD_eq_getElem?_getD]

theorem insertLoop_read_ne (r q : Nat) (hq : q ≠ r) :
    ∀ (js : List Nat) (vs : List FVal) (h : Heap),
      Heap.read (insertLoop r js vs h).1 q = h.read q
  | [], _, _ => rfl
  | _ :: _, [], _ => rfl
  | j :: js, v :: vs, h => by
    show Heap.read (insertLoop r js vs (h.writeAt r j v)).1 q = h.read q
    rw [insertLoop_read_ne r q hq js vs (h.writeAt r j v),
      Heap.writeAt_read_ne h r j v q hq]

/-- Every array the heap pipeline writes to is freshly allocated, so any
reference that was live before the call reads the same array afterwards,
whether flatten returns or raises. -/
theorem flattenHeap_frame (collab : Collab) (env : Env) (method : String)
    (wl bt cv : Option ℚ) (ptc : ℚ) (rt : Bool) (h : Heap) (tRef fRef q : Nat)
    (hq : q < h.length) :
    Heap.read (flattenHeap collab env method wl bt cv ptc rt h tRef fRef).1 q =
      h.read q := by
  have happ2 : Heap.read (h ++ [h.read tRef] ++ [h.read fRef]) q = h.read q := by
    rw [Heap.read_append_lt _ _ _ (by
      simp only [List.length_append, List.length_cons, List.length_nil]
      omega)]
    exact Heap.read_append_lt h (h.read tRef) q hq
  have happ3 : ∀ v, Heap.read (h ++ [h.read tRef] ++ [h.read fRef] ++ [v]) q =
      h.read q := by
    intro v
    rw [Heap.read_append_lt _ _ _ (by
      simp only [List.length_append, List.length_cons, List.length_nil]
      omega)]
    exact happ2
  have hner : q ≠ (h ++ [h.read tRef] ++ [h.read fRef]).length := by
    simp only [List.length_append, List.length_cons, List.length_nil]
    omega
  simp only [flattenHeap, Heap.alloc]
  split
  · rfl
  · split
    · exact happ2
    · split
      · exact (insertLoop_read_ne _ q hner _ _ _).trans (happ3 _)
      · exact (insertLoop_read_ne _ q hner _ _ _).trans (happ3 _)

/-- C9: flatten never mutates the arrays its caller passed: it copies time
and flux into freshly allocated arrays before any computation and only ever
writes into the freshly allocated trend array, so the caller references read
unchanged after every call, whether it returns or raises. -/
theorem flatten_no_mutation (collab : Collab) (env : Env) (method : String)
    (wl bt cv : Option ℚ) (ptc : ℚ) (rt : Bool) (h : Heap) (tRef fRef : Nat)
    (ht : tRef < h.length) (hf : fRef < h.length) :
    Heap.read (flattenHeap collab env method wl bt cv ptc rt h tRef fRef).1
      tRef = h.read tRef ∧
    Heap.read (flattenHeap collab env method wl bt cv ptc rt h tRef fRef).1
      fRef = h.read fRef :=
  ⟨flattenHeap_frame collab env method wl bt cv ptc rt h tRef fRef tRef ht,
   flattenHeap_frame collab env method wl bt cv ptc rt h tRef fRef fRef hf⟩

theorem flatten_no_mutation_witness :
    (0 : Nat) < ([[FVal.fin 0, FVal.fin 1], [FVal.fin 3, FVal.fin 4]] : Heap).length ∧
    (1 : Nat) < ([[FVal.fin 0, FVal.fin 1], [FVal.fin 3, FVal.fin 4]] : Heap).length ∧
    Heap.read (flattenHeap (collabMedian 2 0) allEnv "median" none none none
      (1/10) true [[FVal.fin 0, FVal.fin 1], [FVal.fin 3, FVal.fin 4]] 0 1).1 0 =
      Heap.read [[FVal.fin 0, FVal.fin 1], [FVal.fin 3, FVal.fin 4]] 0 ∧
    Heap.read (flattenHeap (collabMedian 2 0) allEnv "median" none none none
      (1/10) true [[FVal.fin 0, FVal.fin 1], [FVal.fin 3, FVal.fin 4]] 0 1).1 1 =
      Heap.read [[FVal.fin 0, FVal.fin 1], [FVal.fin 3, FVal.fin 4]] 1 :=
  ⟨by decide, by decide,
   (flatten_no_mutation (collabMedian 2 0) allEnv "median" none none none
     (1/10) true _ 0 1 (by decide) (by decide)).1,
   (flatten_no_mutation (collabMedian 2 0) allEnv "median" none none none
     (1/10) true _ 0 1 (by decide) (by decide)).2⟩

end Wotan
